import Mathlib

/-!
Shallow embedding of the resume-screening core pipeline
(src/agents/matcher.py, src/agents/ranker.py, src/runner.py and the
data model in src/models) together with proofs of its specification
properties.  Python floats are modelled by `ℚ`; Python strings by
`String` with the string operations used by the code (`lower`, `strip`,
substring `in`, `split`, `join`) implemented structurally over
`List Char`.  The external language-model collaborators (analyzer,
parser, explanation generator) are parameters of the orchestrator.
-/

/-! ## Python string primitives -/

/-- Python `str.lower()` (per-character lower-casing). -/
def pyLower (s : String) : String := ⟨s.data.map Char.toLower⟩

/-- Python `str.strip()`: drop whitespace from both ends. -/
def pyStrip (s : String) : String :=
  ⟨((s.data.dropWhile Char.isWhitespace).reverse.dropWhile Char.isWhitespace).reverse⟩

/-- The normalization `s.lower().strip()` applied to skills by the matcher. -/
def pyNorm (s : String) : String := pyStrip (pyLower s)

/-- Does `hay` start with `needle` (on character lists)? -/
def strStartsAux : List Char → List Char → Bool
  | [], _ => true
  | _ :: _, [] => false
  | a :: as, b :: bs => a == b && strStartsAux as bs

/-- Does `needle` occur contiguously inside `hay` (on character lists)? -/
def strContainsAux (needle : List Char) : List Char → Bool
  | [] => strStartsAux needle []
  | c :: cs => strStartsAux needle (c :: cs) || strContainsAux needle cs

/-- Python substring test `needle in hay`. -/
def strContains (hay needle : String) : Bool := strContainsAux needle.data hay.data

/-- Python `sep.join(parts)`. -/
def pyJoin (sep : String) : List String → String
  | [] => ""
  | [x] => x
  | x :: y :: xs => x ++ sep ++ pyJoin sep (y :: xs)

/-- Python `str.split()` with no argument: split on whitespace, dropping
empty pieces. -/
def pySplitWs (s : String) : List String :=
  (s.split Char.isWhitespace).filter (fun p => !p.isEmpty)

/-- Round a rational to the nearest integer, ties to even (the rounding
used by Python's fixed-point float formatting). -/
def roundHalfEven (q : ℚ) : ℤ :=
  let f := ⌊q⌋
  let r := q - f
  if r < 1/2 then f
  else if 1/2 < r then f + 1
  else if f % 2 = 0 then f else f + 1

/-- Python `f"{x:.1f}"`: format with one decimal digit. -/
def fmt1 (q : ℚ) : String :=
  let n := roundHalfEven (q * 10)
  if n < 0 then
    "-" ++ toString (n.natAbs / 10) ++ "." ++ toString (n.natAbs % 10)
  else
    toString (n.toNat / 10) ++ "." ++ toString (n.toNat % 10)

/-! ## Data model (src/models) -/

/-- src/models/resume.py `ExperienceEntry`; `duration_months` is declared
`int` but may be `None` at runtime (the matcher defends with `or 0`). -/
structure ExperienceEntry where
  title : String
  company : String
  duration_months : Option ℤ
  description : String
deriving DecidableEq

/-- src/models/resume.py `EducationEntry`. -/
structure EducationEntry where
  degree : String
  institution : String
  year : Option ℤ := none
  field : Option String := none
deriving DecidableEq

/-- src/models/resume.py `ResumeData`. -/
structure ResumeData where
  name : String
  skills : List String
  experience : List ExperienceEntry
  education : List EducationEntry
  raw_text : String
  email : Option String := none
  phone : Option String := none
deriving DecidableEq

/-- src/models/job.py `JobRequirements`. -/
structure JobRequirements where
  title : String
  required_skills : List String
  preferred_skills : List String
  min_experience_years : ℤ
  education_requirements : List String
  responsibilities : List String := []
deriving DecidableEq

/-- src/models/match.py `MatchResult`; scores modelled by `ℚ`. -/
structure MatchResult where
  resume : ResumeData
  overall_score : ℚ
  skills_score : ℚ
  experience_score : ℚ
  education_score : ℚ
  matched_skills : List String
  skill_gaps : List String
  strengths : List String
deriving DecidableEq

/-- src/models/candidate.py `CandidateResult`. -/
structure CandidateResult where
  rank : ℕ
  name : String
  overall_score : ℚ
  skills_score : ℚ
  experience_score : ℚ
  education_score : ℚ
  matched_skills : List String
  skill_gaps : List String
  strengths : List String
  explanation : String
deriving DecidableEq

/-- src/models/status.py `ProcessingStatus` (the wall-clock fields
`start_time`/`elapsed_seconds` carry no verifiable content and are
omitted). -/
structure ProcessingStatus where
  current_agent : String
  processed_count : ℕ
  total_count : ℕ
  is_complete : Bool
  error_message : Option String
deriving DecidableEq

/-! ## Matcher (src/agents/matcher.py) -/

/-- src/config.py scoring weights. -/
def SKILLS_WEIGHT : ℚ := 0.4

def EXPERIENCE_WEIGHT : ℚ := 0.4

def EDUCATION_WEIGHT : ℚ := 0.2

/-- `MatcherAgent.compute_score`: the weighted overall score. -/
def computeScore (skills_score experience_score education_score : ℚ) : ℚ :=
  skills_score * SKILLS_WEIGHT +
  experience_score * EXPERIENCE_WEIGHT +
  education_score * EDUCATION_WEIGHT

/-- `MatcherAgent._compute_skills_score`. -/
def computeSkillsScore (resume_skills required_skills : List String) : ℚ :=
  if required_skills.isEmpty then 100
  else
    let resume_skills_lower := (resume_skills.map pyNorm).toFinset
    let required_skills_lower := (required_skills.map pyNorm).toFinset
    let n_matches := (resume_skills_lower ∩ required_skills_lower).card
    min 100 ((n_matches : ℚ) / (required_skills_lower.card : ℚ) * 100)

/-- Total months of experience: `sum((exp.duration_months or 0) for ...)`. -/
def totalMonths (experience : List ExperienceEntry) : ℤ :=
  (experience.map (fun e => e.duration_months.getD 0)).sum

/-- `total_months / 12` as used by the matcher. -/
def totalYears (experience : List ExperienceEntry) : ℚ :=
  (totalMonths experience : ℚ) / 12

/-- `MatcherAgent._compute_experience_score`. -/
def computeExperienceScore (experience : List ExperienceEntry) (min_years : ℤ) : ℚ :=
  if min_years ≤ 0 then 100
  else if (min_years : ℚ) ≤ totalYears experience then 100
  else min 100 (totalYears experience / (min_years : ℚ) * 100)

/-- The lower-cased education text blob:
`" ".join(f"{edu.degree} {edu.field or ''} {edu.institution}".lower() ...)`. -/
def educationBlob (education : List EducationEntry) : String :=
  pyJoin " " (education.map fun edu =>
    pyLower (edu.degree ++ " " ++ edu.field.getD "" ++ " " ++ edu.institution))

/-- `MatcherAgent._compute_education_score`. -/
def computeEducationScore (education : List EducationEntry) (requirements : List String) : ℚ :=
  if requirements.isEmpty then 100
  else if education.isEmpty then 0
  else
    let education_text := educationBlob education
    let n_matches := (requirements.filter fun req =>
      (pySplitWs (pyLower req)).any fun word => strContains education_text word).length
    min 100 ((n_matches : ℚ) / (requirements.length : ℚ) * 100)

/-- The dict comprehension `{s.lower().strip(): s for s in resume_skills}`
of `_find_matched_skills`, as a lookup function (later entries overwrite
earlier ones). -/
def skillMap (resume_skills : List String) : String → Option String :=
  resume_skills.foldl (fun m s => fun k => if k = pyNorm s then some s else m k)
    (fun _ => none)

/-- `MatcherAgent._find_matched_skills`. -/
def findMatchedSkills (resume_skills required_skills : List String) : List String :=
  required_skills.filterMap (fun req_skill => skillMap resume_skills (pyNorm req_skill))

/-- `MatcherAgent.identify_gaps`. -/
def identifyGaps (resume_skills required_skills : List String) : List String :=
  required_skills.filter
    (fun req_skill => !((resume_skills.map pyNorm).contains (pyNorm req_skill)))

/-- `MatcherAgent.identify_strengths`. -/
def identifyStrengths (resume : ResumeData) (requirements : JobRequirements) : List String :=
  let matched_skills := findMatchedSkills resume.skills requirements.required_skills
  let s1 : List String :=
    if matched_skills.isEmpty then []
    else ["Has " ++ toString matched_skills.length ++ " of " ++
      toString requirements.required_skills.length ++ " required skills"]
  let ty := totalYears resume.experience
  let s2 : List String :=
    if 0 < requirements.min_experience_years ∧ (requirements.min_experience_years : ℚ) ≤ ty then
      ["Exceeds experience requirement (" ++ fmt1 ty ++ " years)"]
    else []
  let preferred_matches := findMatchedSkills resume.skills requirements.preferred_skills
  let s3 : List String :=
    if preferred_matches.isEmpty then []
    else ["Has " ++ toString preferred_matches.length ++ " preferred skills"]
  s1 ++ s2 ++ s3

/-- `MatcherAgent.match_candidate`. -/
def matchCandidate (resume : ResumeData) (requirements : JobRequirements) : MatchResult :=
  let skills_score := computeSkillsScore resume.skills requirements.required_skills
  let experience_score := computeExperienceScore resume.experience requirements.min_experience_years
  let education_score := computeEducationScore resume.education requirements.education_requirements
  { resume := resume
    overall_score := computeScore skills_score experience_score education_score
    skills_score := skills_score
    experience_score := experience_score
    education_score := education_score
    matched_skills := findMatchedSkills resume.skills requirements.required_skills
    skill_gaps := identifyGaps resume.skills requirements.required_skills
    strengths := identifyStrengths resume requirements }

example : pyNorm "  Python " = "python" := by decide

example : computeSkillsScore ["python"] ["Python", "SQL"] = 50 := by
  have h1 : (((["python"] : List String).map pyNorm).toFinset ∩
      ((["Python", "SQL"] : List String).map pyNorm).toFinset).card = 1 := by decide
  have h2 : (((["Python", "SQL"] : List String).map pyNorm).toFinset).card = 2 := by decide
  simp only [computeSkillsScore, List.isEmpty_cons, h1, h2]
  norm_num

/-! ## Ranker (src/agents/ranker.py) -/

/-- The sort key `(m.overall_score, len(m.matched_skills))`. -/
def rankerKey (m : MatchResult) : ℚ × ℕ := (m.overall_score, m.matched_skills.length)

/-- Lexicographic `≤` on sort keys (Python tuple comparison). -/
def keyLe (p q : ℚ × ℕ) : Bool :=
  decide (p.1 < q.1) || (decide (p.1 = q.1) && decide (p.2 ≤ q.2))

/-- The comparator realising `sorted(key=..., reverse=True)`: `a` may come
before `b` iff `key b ≤ key a`. -/
def rankerLe (a b : MatchResult) : Bool := keyLe (rankerKey b) (rankerKey a)

/-- `RankerAgent._generate_simple_explanation`. -/
def generateSimpleExplanation (m : MatchResult) (rank : ℕ) : String :=
  let parts : List String :=
    ["Ranked #" ++ toString rank ++ " with " ++ fmt1 m.overall_score ++ "% match."]
  let parts := if m.matched_skills.isEmpty then parts else
    parts ++ ["Has " ++ toString m.matched_skills.length ++ " matching skills."]
  let parts := if m.skill_gaps.isEmpty then parts else
    parts ++ ["Missing " ++ toString m.skill_gaps.length ++ " required skills."]
  let parts := if m.strengths.isEmpty then parts else
    parts ++ ["Strengths: " ++ pyJoin ", " (m.strengths.take 2) ++ "."]
  pyJoin " " parts

/-- Construction of one `CandidateResult` from a sorted match (the body of
the loop in `RankerAgent.rank_candidates`). -/
def candidateOf (m : MatchResult) (rank : ℕ) (explanation : String) : CandidateResult :=
  { rank := rank
    name := m.resume.name
    overall_score := m.overall_score
    skills_score := m.skills_score
    experience_score := m.experience_score
    education_score := m.education_score
    matched_skills := m.matched_skills
    skill_gaps := m.skill_gaps
    strengths := m.strengths
    explanation := explanation }

/-- The explanation choice in the ranking loop: with the flag on, the
external generator (`generate_explanation`) is consulted, any failure
(`none`) falling back to the simple template; with the flag off, the
simple template directly. -/
def rankExplanation (ai : MatchResult → ℕ → Option String)
    (generate_explanations : Bool) (m : MatchResult) (rank : ℕ) : String :=
  if generate_explanations then
    match ai m rank with
    | some text => text
    | none => generateSimpleExplanation m rank
  else generateSimpleExplanation m rank

/-- `RankerAgent.rank_candidates`.  The external explanation generator
(`generate_explanation`'s Gemini call) is the oracle `ai`; `ai m rank =
none` models any failure of that call. -/
def rankCandidates (ai : MatchResult → ℕ → Option String)
    (matchList : List MatchResult) (generate_explanations : Bool) : List CandidateResult :=
  if matchList.isEmpty then []
  else
    ((matchList.mergeSort rankerLe).enumFrom 1).map fun p =>
      candidateOf p.2 p.1 (rankExplanation ai generate_explanations p.2 p.1)

/-! ## Orchestrator (src/runner.py) -/

/-- `ResumeScreeningRunner._update_status` snapshot constructor. -/
def mkStatus (agent : String) (processed total : ℕ)
    (error : Option String) (complete : Bool) : ProcessingStatus :=
  { current_agent := agent
    processed_count := processed
    total_count := total
    is_complete := complete
    error_message := error }

/-- The parser loop of `ResumeScreeningRunner.process` over the enumerated
inputs: returns (parsed resumes, accumulated error strings, emitted
snapshots), each in encounter order. -/
def parseStage {α : Type} (parse : α → Except String ResumeData) (total : ℕ) :
    List (ℕ × α) → List ResumeData × List String × List ProcessingStatus
  | [] => ([], [], [])
  | (i, x) :: rest =>
    let snap := mkStatus "Parser" i total none false
    match parse x with
    | .error e =>
      let r := parseStage parse total rest
      (r.1, ("Resume " ++ toString (i + 1) ++ ": " ++ e) :: r.2.1, snap :: r.2.2)
    | .ok resume_data =>
      let r := parseStage parse total rest
      (resume_data :: r.1, r.2.1, snap :: r.2.2)

/-- Observable outcome of one run: the returned pair plus the trace of
status snapshots passed to the callback. -/
structure RunTrace where
  results : List CandidateResult
  error_summary : Option String
  snapshots : List ProcessingStatus
deriving DecidableEq

/-- `ResumeScreeningRunner.process` (identical control flow to
`process_from_text`).  The external collaborators are parameters:
`analyze` is `AnalyzerAgent.analyze_job_description`, `parse` is
`ParserAgent.parse_resume`, `ai` the explanation generator.  The matcher
is the total function `matchCandidate`, so the defensive per-candidate
`except` never fires. -/
def process {α : Type} (analyze : String → Except String JobRequirements)
    (parse : α → Except String ResumeData)
    (ai : MatchResult → ℕ → Option String)
    (pdf_files : List α) (job_description : String)
    (generate_explanations : Bool) : RunTrace :=
  let total := pdf_files.length
  let snap0 := mkStatus "Analyzer" 0 total none false
  match analyze job_description with
  | .error err =>
    { results := []
      error_summary := some ("Failed to analyze job description: " ++ err)
      snapshots := [snap0, mkStatus "Analyzer" 0 total (some err) false] }
  | .ok job_requirements =>
    let ps := parseStage parse total pdf_files.enum
    let parsed := ps.1
    let errList := ps.2.1
    let psnaps := ps.2.2
    if parsed.isEmpty then
      { results := []
        error_summary := some "No resumes could be parsed"
        snapshots := snap0 :: psnaps ++
          [mkStatus "Parser" total total (some "No resumes could be parsed") false] }
    else
      let msnaps := parsed.enum.map fun p =>
        mkStatus "Matcher" p.1 parsed.length none false
      let matchList := parsed.map fun r => matchCandidate r job_requirements
      if matchList.isEmpty then
        { results := []
          error_summary := some "No candidates could be matched"
          snapshots := snap0 :: psnaps ++ msnaps ++
            [mkStatus "Matcher" parsed.length parsed.length
              (some "No candidates could be matched") false] }
      else
        let results := rankCandidates ai matchList generate_explanations
        { results := results
          error_summary := if errList.isEmpty then none else some (pyJoin "; " errList)
          snapshots := snap0 :: psnaps ++ msnaps ++
            [mkStatus "Ranker" 0 matchList.length none false,
             mkStatus "Complete" results.length results.length none true] }

/-! ## Concrete fixtures used by the scenario and witness theorems -/

def resumeW : ResumeData :=
  { name := "Ada"
    skills := ["Python"]
    experience := [{ title := "Dev", company := "Acme",
                     duration_months := some 24, description := "d" }]
    education := []
    raw_text := "r" }

def reqW : JobRequirements :=
  { title := "Engineer"
    required_skills := ["Python"]
    preferred_skills := []
    min_experience_years := 1
    education_requirements := [] }

def resumeC7 : ResumeData :=
  { name := "Cand"
    skills := ["python"]
    experience := []
    education := []
    raw_text := "" }

def reqC7 : JobRequirements :=
  { title := "T"
    required_skills := ["Python", "SQL"]
    preferred_skills := []
    min_experience_years := 0
    education_requirements := [] }

/-- The sort key as visible on a `CandidateResult`. -/
def candKey (c : CandidateResult) : ℚ × ℕ := (c.overall_score, c.matched_skills.length)

/-- The data a `CandidateResult` carries over from its `MatchResult`
(everything except rank and explanation). -/
def candData (c : CandidateResult) :
    String × ℚ × ℚ × ℚ × ℚ × List String × List String × List String :=
  (c.name, c.overall_score, c.skills_score, c.experience_score, c.education_score,
   c.matched_skills, c.skill_gaps, c.strengths)

/-- The same projection on a `MatchResult`. -/
def matchData (m : MatchResult) :
    String × ℚ × ℚ × ℚ × ℚ × List String × List String × List String :=
  (m.resume.name, m.overall_score, m.skills_score, m.experience_score, m.education_score,
   m.matched_skills, m.skill_gaps, m.strengths)

/-- The deterministic explanation template exactly as the specification
words it (start sentence, then the three optional sentences in fixed
order, space-joined); written independently of the code's sequential
list-building for comparison with `generateSimpleExplanation`. -/
def specExplanationTemplate (m : MatchResult) (rank : ℕ) : String :=
  pyJoin " "
    (["Ranked #" ++ toString rank ++ " with " ++ fmt1 m.overall_score ++ "% match."] ++
     (if m.matched_skills.isEmpty then [] else
       ["Has " ++ toString m.matched_skills.length ++ " matching skills."]) ++
     (if m.skill_gaps.isEmpty then [] else
       ["Missing " ++ toString m.skill_gaps.length ++ " required skills."]) ++
     (if m.strengths.isEmpty then [] else
       ["Strengths: " ++ pyJoin ", " (m.strengths.take 2) ++ "."]))

def analyzeW : String → Except String JobRequirements := fun _ => .ok reqC7

def parseFailW : ℕ → Except String ResumeData := fun _ => .error "bad document"

def jobC5 : JobRequirements :=
  { title := "Dev"
    required_skills := []
    preferred_skills := []
    min_experience_years := 0
    education_requirements := [] }

def resC5 : ResumeData :=
  { name := "Cand"
    skills := []
    experience := []
    education := []
    raw_text := "" }

def analyzeC5 : String → Except String JobRequirements := fun _ => .ok jobC5

def parseC5 : ℕ → Except String ResumeData :=
  fun n => if n = 1 then .error "could not extract text" else .ok resC5

def runC5 : RunTrace := process analyzeC5 parseC5 (fun _ _ => none) [0, 1, 2] "Need a dev" false

/-! ## Matcher score properties -/

theorem matchCandidate_overall (resume : ResumeData) (req : JobRequirements) :
    (matchCandidate resume req).overall_score =
      computeScore (computeSkillsScore resume.skills req.required_skills)
        (computeExperienceScore resume.experience req.min_experience_years)
        (computeEducationScore resume.education req.education_requirements) := rfl

theorem matchCandidate_skills (resume : ResumeData) (req : JobRequirements) :
    (matchCandidate resume req).skills_score =
      computeSkillsScore resume.skills req.required_skills := rfl

theorem matchCandidate_experience (resume : ResumeData) (req : JobRequirements) :
    (matchCandidate resume req).experience_score =
      computeExperienceScore resume.experience req.min_experience_years := rfl

theorem matchCandidate_education (resume : ResumeData) (req : JobRequirements) :
    (matchCandidate resume req).education_score =
      computeEducationScore resume.education req.education_requirements := rfl

theorem matchCandidate_matched (resume : ResumeData) (req : JobRequirements) :
    (matchCandidate resume req).matched_skills =
      findMatchedSkills resume.skills req.required_skills := rfl

theorem matchCandidate_gaps (resume : ResumeData) (req : JobRequirements) :
    (matchCandidate resume req).skill_gaps =
      identifyGaps resume.skills req.required_skills := rfl

theorem weight_values :
    SKILLS_WEIGHT = 2/5 ∧ EXPERIENCE_WEIGHT = 2/5 ∧ EDUCATION_WEIGHT = 1/5 := by
  refine ⟨?_, ?_, ?_⟩ <;> norm_num [SKILLS_WEIGHT, EXPERIENCE_WEIGHT, EDUCATION_WEIGHT]

/-- C1: for every MatchResult returned by `match_candidate`, the overall
score equals `0.4*skills + 0.4*experience + 0.2*education` within an
absolute tolerance of `0.01` (in the rational model the weighted sum is
exact, so the distance is `0`). -/
theorem overall_score_weighted_sum (resume : ResumeData) (req : JobRequirements) :
    |(matchCandidate resume req).overall_score -
      (0.4 * (matchCandidate resume req).skills_score +
       0.4 * (matchCandidate resume req).experience_score +
       0.2 * (matchCandidate resume req).education_score)| ≤ 0.01 := by
  rw [matchCandidate_overall, matchCandidate_skills, matchCandidate_experience,
    matchCandidate_education]
  obtain ⟨h1, h2, h3⟩ := weight_values
  unfold computeScore
  rw [h1, h2, h3]
  have hz : ∀ a b c : ℚ,
      a * (2/5) + b * (2/5) + c * (1/5) - (0.4 * a + 0.4 * b + 0.2 * c) = 0 := by
    intro a b c
    norm_num
    ring
  rw [hz]
  norm_num

theorem computeSkillsScore_bounds (rs req : List String) :
    0 ≤ computeSkillsScore rs req ∧ computeSkillsScore rs req ≤ 100 := by
  unfold computeSkillsScore
  split
  · norm_num
  · exact ⟨le_min (by norm_num) (by positivity), min_le_left _ _⟩

theorem totalYears_nonneg (experience : List ExperienceEntry)
    (hd : ∀ e ∈ experience, 0 ≤ e.duration_months.getD 0) :
    0 ≤ totalYears experience := by
  unfold totalYears
  have hm : 0 ≤ totalMonths experience := by
    unfold totalMonths
    apply List.sum_nonneg
    intro x hx
    obtain ⟨e, he, rfl⟩ := List.mem_map.mp hx
    exact hd e he
  positivity

theorem computeExperienceScore_bounds (experience : List ExperienceEntry) (min_years : ℤ)
    (hd : ∀ e ∈ experience, 0 ≤ e.duration_months.getD 0) :
    0 ≤ computeExperienceScore experience min_years ∧
      computeExperienceScore experience min_years ≤ 100 := by
  unfold computeExperienceScore
  split
  · norm_num
  · rename_i hpos
    split
    · norm_num
    · refine ⟨le_min (by norm_num) ?_, min_le_left _ _⟩
      have h0 : 0 ≤ totalYears experience := totalYears_nonneg experience hd
      have hm : (0 : ℚ) < (min_years : ℚ) := by
        push_neg at hpos
        exact_mod_cast hpos
      have := div_nonneg h0 hm.le
      nlinarith

theorem computeEducationScore_in_range (education : List EducationEntry)
    (req : List String) :
    0 ≤ computeEducationScore education req ∧ computeEducationScore education req ≤ 100 := by
  unfold computeEducationScore
  split
  · norm_num
  · split
    · norm_num
    · exact ⟨le_min (by norm_num) (by positivity), min_le_left _ _⟩

/-- C2: for well-formed inputs (each experience duration absent or
non-negative, minimum experience a non-negative integer) all four scores
of the MatchResult lie in `[0, 100]`, and in the experience-deficit branch
the uncapped value `(total_years/min_years)*100` is already strictly below
`100`, so the cap never changes the result. -/
theorem match_scores_in_range (resume : ResumeData) (req : JobRequirements)
    (hd : ∀ e ∈ resume.experience, 0 ≤ e.duration_months.getD 0)
    (hm : 0 ≤ req.min_experience_years) :
    (0 ≤ (matchCandidate resume req).skills_score ∧
      (matchCandidate resume req).skills_score ≤ 100) ∧
    (0 ≤ (matchCandidate resume req).experience_score ∧
      (matchCandidate resume req).experience_score ≤ 100) ∧
    (0 ≤ (matchCandidate resume req).education_score ∧
      (matchCandidate resume req).education_score ≤ 100) ∧
    (0 ≤ (matchCandidate resume req).overall_score ∧
      (matchCandidate resume req).overall_score ≤ 100) ∧
    (0 < req.min_experience_years →
      totalYears resume.experience < (req.min_experience_years : ℚ) →
      computeExperienceScore resume.experience req.min_experience_years =
        totalYears resume.experience / (req.min_experience_years : ℚ) * 100 ∧
      totalYears resume.experience / (req.min_experience_years : ℚ) * 100 < 100) := by
  have hs := computeSkillsScore_bounds resume.skills req.required_skills
  have he := computeExperienceScore_bounds resume.experience req.min_experience_years hd
  have hed := computeEducationScore_in_range resume.education req.education_requirements
  refine ⟨?_, ?_, ?_, ?_, ?_⟩
  · rw [matchCandidate_skills]; exact hs
  · rw [matchCandidate_experience]; exact he
  · rw [matchCandidate_education]; exact hed
  · rw [matchCandidate_overall]
    obtain ⟨h1, h2, h3⟩ := weight_values
    unfold computeScore
    rw [h1, h2, h3]
    obtain ⟨hs1, hs2⟩ := hs
    obtain ⟨he1, he2⟩ := he
    obtain ⟨hed1, hed2⟩ := hed
    constructor <;> linarith
  · intro hpos hlt
    unfold computeExperienceScore
    rw [if_neg (by omega), if_neg (not_le.mpr hlt)]
    have hmq : (0 : ℚ) < (req.min_experience_years : ℚ) := by exact_mod_cast hpos
    have hquot : totalYears resume.experience / (req.min_experience_years : ℚ) < 1 :=
      (div_lt_one hmq).mpr hlt
    have h100 : totalYears resume.experience / (req.min_experience_years : ℚ) * 100 < 100 := by
      nlinarith
    exact ⟨min_eq_right h100.le, h100⟩

/-- Concrete instantiation witnessing that the hypotheses of
`match_scores_in_range` are satisfiable. -/
theorem match_scores_in_range_witness :
    (∀ e ∈ resumeW.experience, 0 ≤ e.duration_months.getD 0) ∧
    (0 ≤ reqW.min_experience_years) ∧
    ((0 ≤ (matchCandidate resumeW reqW).skills_score ∧
        (matchCandidate resumeW reqW).skills_score ≤ 100) ∧
     (0 ≤ (matchCandidate resumeW reqW).experience_score ∧
        (matchCandidate resumeW reqW).experience_score ≤ 100) ∧
     (0 ≤ (matchCandidate resumeW reqW).education_score ∧
        (matchCandidate resumeW reqW).education_score ≤ 100) ∧
     (0 ≤ (matchCandidate resumeW reqW).overall_score ∧
        (matchCandidate resumeW reqW).overall_score ≤ 100) ∧
     (0 < reqW.min_experience_years →
        totalYears resumeW.experience < (reqW.min_experience_years : ℚ) →
        computeExperienceScore resumeW.experience reqW.min_experience_years =
          totalYears resumeW.experience / (reqW.min_experience_years : ℚ) * 100 ∧
        totalYears resumeW.experience / (reqW.min_experience_years : ℚ) * 100 < 100)) :=
  ⟨by decide, by decide, match_scores_in_range resumeW reqW (by decide) (by decide)⟩

/-! ## Skill matching: gaps and matches partition the required skills -/

theorem skillMap_foldl (l : List String) (g : String → Option String) (k : String) :
    (l.foldl (fun m s => fun k => if k = pyNorm s then some s else m k) g) k =
      ((l.filter (fun s => decide (pyNorm s = k))).getLast?).or (g k) := by
  induction l generalizing g with
  | nil => simp
  | cons s t ih =>
    rw [List.foldl_cons, ih]
    by_cases h : pyNorm s = k
    · have hd : decide (pyNorm s = k) = true := by simp [h]
      simp only [List.filter_cons, hd, if_true, if_pos h.symm]
      cases hlast : (t.filter (fun s => decide (pyNorm s = k))).getLast? with
      | none => simp [List.getLast?_cons, hlast]
      | some y => simp [List.getLast?_cons, hlast]
    · have h' : ¬(k = pyNorm s) := fun hh => h hh.symm
      have hd : decide (pyNorm s = k) = false := by simp [h]
      simp only [List.filter_cons, hd, if_neg h']
      simp

theorem skillMap_eq_getLast (resume_skills : List String) (k : String) :
    skillMap resume_skills k =
      (resume_skills.filter (fun s => decide (pyNorm s = k))).getLast? := by
  unfold skillMap
  rw [skillMap_foldl]
  exact Option.or_none

theorem skillMap_some (resume_skills : List String) (k s : String)
    (h : skillMap resume_skills k = some s) : pyNorm s = k ∧ s ∈ resume_skills := by
  rw [skillMap_eq_getLast] at h
  have hmem := List.mem_of_getLast?_eq_some h
  rw [List.mem_filter] at hmem
  exact ⟨by simpa using hmem.2, hmem.1⟩

theorem skillMap_eq_none_iff (resume_skills : List String) (k : String) :
    skillMap resume_skills k = none ↔ k ∉ resume_skills.map pyNorm := by
  rw [skillMap_eq_getLast, List.getLast?_eq_none_iff, List.filter_eq_nil_iff]
  simp

theorem skillMap_isSome_of_mem (resume_skills : List String) (k : String)
    (h : k ∈ resume_skills.map pyNorm) : ∃ s, skillMap resume_skills k = some s := by
  cases hs : skillMap resume_skills k with
  | none => exact absurd h ((skillMap_eq_none_iff _ _).mp hs)
  | some s => exact ⟨s, rfl⟩

theorem mem_norm_findMatched (resume_skills required_skills : List String) (x : String) :
    x ∈ (findMatchedSkills resume_skills required_skills).map pyNorm ↔
      x ∈ required_skills.map pyNorm ∧ x ∈ resume_skills.map pyNorm := by
  unfold findMatchedSkills
  simp only [List.mem_map, List.mem_filterMap]
  constructor
  · rintro ⟨s, ⟨req, hreq, hsm⟩, rfl⟩
    obtain ⟨hn, hsmem⟩ := skillMap_some _ _ _ hsm
    exact ⟨⟨req, hreq, hn.symm⟩, ⟨s, hsmem, rfl⟩⟩
  · rintro ⟨⟨req, hreq, hx⟩, a, ha, hax⟩
    obtain ⟨s, hs⟩ := skillMap_isSome_of_mem resume_skills (pyNorm req)
      (List.mem_map.mpr ⟨a, ha, hax.trans hx.symm⟩)
    obtain ⟨hn, _⟩ := skillMap_some _ _ _ hs
    exact ⟨s, ⟨req, hreq, hs⟩, hn.trans hx⟩

theorem mem_norm_gaps (resume_skills required_skills : List String) (x : String) :
    x ∈ (identifyGaps resume_skills required_skills).map pyNorm ↔
      x ∈ required_skills.map pyNorm ∧ x ∉ resume_skills.map pyNorm := by
  unfold identifyGaps
  simp only [List.mem_map, List.mem_filter, Bool.not_eq_true']
  constructor
  · rintro ⟨req, ⟨hreq, hc⟩, rfl⟩
    refine ⟨⟨req, hreq, rfl⟩, ?_⟩
    simpa [List.contains] using hc
  · rintro ⟨⟨req, hreq, hx⟩, hnot⟩
    subst hx
    exact ⟨req, ⟨hreq, by simpa [List.contains] using hnot⟩, rfl⟩

/-- C3: for every pair of skill lists, the normalized skill gaps united
with the normalized matched skills equal the normalized required skills,
and the two sets are disjoint. -/
theorem gaps_matched_partition (resume_skills required_skills : List String) :
    (((identifyGaps resume_skills required_skills).map pyNorm).toFinset ∪
       ((findMatchedSkills resume_skills required_skills).map pyNorm).toFinset =
       (required_skills.map pyNorm).toFinset) ∧
    Disjoint ((identifyGaps resume_skills required_skills).map pyNorm).toFinset
      ((findMatchedSkills resume_skills required_skills).map pyNorm).toFinset := by
  constructor
  · ext x
    simp only [Finset.mem_union, List.mem_toFinset, mem_norm_gaps, mem_norm_findMatched]
    tauto
  · rw [Finset.disjoint_left]
    intro x hx hx2
    rw [List.mem_toFinset, mem_norm_gaps] at hx
    rw [List.mem_toFinset, mem_norm_findMatched] at hx2
    exact hx.2 hx2.2

/-! ## Duplicate skills: last resume occurrence wins, per-occurrence output -/

theorem matched_gaps_length (resume_skills : List String) :
    ∀ required_skills : List String,
      (findMatchedSkills resume_skills required_skills).length +
        (identifyGaps resume_skills required_skills).length = required_skills.length := by
  intro required_skills
  induction required_skills with
  | nil => simp [findMatchedSkills, identifyGaps]
  | cons req rest ih =>
    by_cases h : pyNorm req ∈ resume_skills.map pyNorm
    · obtain ⟨s, hs⟩ := skillMap_isSome_of_mem _ _ h
      have hc : ((resume_skills.map pyNorm).contains (pyNorm req)) = true := by
        simp [List.contains, h]
      simp only [findMatchedSkills, identifyGaps, List.filterMap_cons, hs,
        List.filter_cons, hc, Bool.not_true, List.length_cons]
      simp only [findMatchedSkills, identifyGaps] at ih
      simp only [Bool.false_eq_true, if_false, List.length_cons]
      omega
    · have hs := (skillMap_eq_none_iff _ _).mpr h
      have hc : ((resume_skills.map pyNorm).contains (pyNorm req)) = false := by
        simp [List.contains, h]
      simp only [findMatchedSkills, identifyGaps, List.filterMap_cons, hs,
        List.filter_cons, hc, Bool.not_false, if_true, List.length_cons]
      simp only [findMatchedSkills, identifyGaps] at ih
      omega

/-- C10: when several resume skills normalize to the same string, the
matched list carries the one occurring last in the resume list (the dict
comprehension lets later entries overwrite earlier ones); a required skill
listed more than once yields one matched or gap entry per occurrence; and
duplicating a required skill does not change the skills score, whose
denominator is the deduplicated normalized set. -/
theorem duplicate_skill_entries (resume_skills required_skills : List String)
    (r : String) (hr : r ∈ required_skills) :
    (findMatchedSkills resume_skills required_skills =
      required_skills.filterMap (fun req =>
        (resume_skills.filter (fun s => decide (pyNorm s = pyNorm req))).getLast?)) ∧
    ((findMatchedSkills resume_skills required_skills).length +
      (identifyGaps resume_skills required_skills).length = required_skills.length) ∧
    (computeSkillsScore resume_skills (required_skills ++ [r]) =
      computeSkillsScore resume_skills required_skills) := by
  refine ⟨?_, matched_gaps_length resume_skills required_skills, ?_⟩
  · unfold findMatchedSkills
    have hfun : (fun req => skillMap resume_skills (pyNorm req)) =
        (fun req => (resume_skills.filter
          (fun s => decide (pyNorm s = pyNorm req))).getLast?) :=
      funext fun req => skillMap_eq_getLast _ _
    rw [hfun]
  · have hfin : ((required_skills ++ [r]).map pyNorm).toFinset =
        (required_skills.map pyNorm).toFinset := by
      ext x
      simp only [List.mem_toFinset, List.map_append, List.mem_append,
        List.map_cons, List.map_nil, List.mem_singleton]
      constructor
      · rintro (h | h)
        · exact h
        · subst h
          exact List.mem_map_of_mem _ hr
      · intro h
        exact Or.inl h
    have h1 : ¬((required_skills ++ [r]).isEmpty = true) := by
      simp [List.isEmpty_iff]
    have h2 : ¬(required_skills.isEmpty = true) := by
      simp only [List.isEmpty_iff]
      exact List.ne_nil_of_mem hr
    simp only [computeSkillsScore]
    rw [if_neg h1, if_neg h2, hfin]

theorem duplicate_skill_entries_witness :
    ("Go" ∈ (["Go", "go"] : List String)) ∧
    ((findMatchedSkills ["golang"] ["Go", "go"] =
        (["Go", "go"] : List String).filterMap (fun req =>
          ((["golang"] : List String).filter
            (fun s => decide (pyNorm s = pyNorm req))).getLast?)) ∧
     ((findMatchedSkills ["golang"] ["Go", "go"]).length +
        (identifyGaps ["golang"] ["Go", "go"]).length =
        (["Go", "go"] : List String).length) ∧
     (computeSkillsScore ["golang"] (["Go", "go"] ++ ["Go"]) =
        computeSkillsScore ["golang"] ["Go", "go"])) :=
  ⟨by decide, duplicate_skill_entries ["golang"] ["Go", "go"] "Go" (by decide)⟩

/-! ## C7 scenario: required=["Python","SQL"], resume=["python"] -/

/-- C7 counterexample: in this scenario the matched-skills entry is NOT
the required casing `"Python"` — `_find_matched_skills` returns the value
of the resume-side normalization map, i.e. the resume casing. -/
theorem matched_skill_required_casing_counterexample :
    (matchCandidate resumeC7 reqC7).matched_skills ≠ ["Python"] := by decide

/-- C7 (amended): for required_skills=["Python","SQL"] and
resume_skills=["python"], `match_candidate` yields skills_score = 50, a
matched-skills list whose single entry is the original resume casing
"python" (one output per matching required skill, in required-skill
order), and skill_gaps = ["SQL"]. -/
theorem scenario_python_sql :
    (matchCandidate resumeC7 reqC7).skills_score = 50 ∧
    (matchCandidate resumeC7 reqC7).matched_skills = ["python"] ∧
    (matchCandidate resumeC7 reqC7).skill_gaps = ["SQL"] := by
  refine ⟨?_, by decide, by decide⟩
  rw [matchCandidate_skills]
  have h1 : ((resumeC7.skills.map pyNorm).toFinset ∩
      (reqC7.required_skills.map pyNorm).toFinset).card = 1 := by decide
  have h2 : ((reqC7.required_skills.map pyNorm).toFinset).card = 2 := by decide
  have h3 : reqC7.required_skills.isEmpty = false := by decide
  simp only [computeSkillsScore, h3, Bool.false_eq_true, if_false, h1, h2]
  norm_num

/-! ## Ranker ordering properties -/

theorem keyLe_refl (p : ℚ × ℕ) : keyLe p p = true := by
  unfold keyLe
  simp

theorem keyLe_trans (p q r : ℚ × ℕ) (h1 : keyLe p q = true) (h2 : keyLe q r = true) :
    keyLe p r = true := by
  unfold keyLe at *
  simp only [Bool.or_eq_true, Bool.and_eq_true, decide_eq_true_eq] at *
  rcases h1 with h1 | ⟨h1e, h1n⟩ <;> rcases h2 with h2 | ⟨h2e, h2n⟩
  · exact Or.inl (lt_trans h1 h2)
  · exact Or.inl (h2e ▸ h1)
  · exact Or.inl (h1e ▸ h2)
  · exact Or.inr ⟨h1e.trans h2e, le_trans h1n h2n⟩

theorem keyLe_total (p q : ℚ × ℕ) : (keyLe p q || keyLe q p) = true := by
  unfold keyLe
  simp only [Bool.or_eq_true, Bool.and_eq_true, decide_eq_true_eq]
  rcases lt_trichotomy p.1 q.1 with h | h | h
  · exact Or.inl (Or.inl h)
  · rcases le_total p.2 q.2 with hn | hn
    · exact Or.inl (Or.inr ⟨h, hn⟩)
    · exact Or.inr (Or.inr ⟨h.symm, hn⟩)
  · exact Or.inr (Or.inl h)

theorem rankerLe_trans (a b c : MatchResult)
    (h1 : rankerLe a b = true) (h2 : rankerLe b c = true) : rankerLe a c = true :=
  keyLe_trans (rankerKey c) (rankerKey b) (rankerKey a) h2 h1

theorem rankerLe_total (a b : MatchResult) : (rankerLe a b || rankerLe b a) = true :=
  keyLe_total (rankerKey b) (rankerKey a)

theorem rankCandidates_eq (ai : MatchResult → ℕ → Option String)
    (matchList : List MatchResult) (g : Bool) :
    rankCandidates ai matchList g =
      ((matchList.mergeSort rankerLe).enumFrom 1).map fun p =>
        candidateOf p.2 p.1 (rankExplanation ai g p.2 p.1) := by
  unfold rankCandidates
  split
  · rename_i h
    rw [List.isEmpty_iff] at h
    subst h
    simp
  · rfl

theorem rankCandidates_length (ai : MatchResult → ℕ → Option String)
    (matchList : List MatchResult) (g : Bool) :
    (rankCandidates ai matchList g).length = matchList.length := by
  rw [rankCandidates_eq]
  simp [List.enumFrom_length, List.length_mergeSort]

theorem filter_map_cand (l : List (ℕ × MatchResult)) (expl : ℕ × MatchResult → String)
    (k : ℚ × ℕ) :
    ((l.map (fun p => candidateOf p.2 p.1 (expl p))).filter
        (fun c => decide (candKey c = k))).map candData =
      ((l.map Prod.snd).filter (fun m => decide (rankerKey m = k))).map matchData := by
  induction l with
  | nil => rfl
  | cons p t ih =>
    simp only [List.map_cons, List.filter_cons]
    have h1 : candKey (candidateOf p.2 p.1 (expl p)) = rankerKey p.2 := rfl
    rw [h1]
    cases hd : decide (rankerKey p.2 = k) with
    | false => simp only [hd, Bool.false_eq_true, if_false]; exact ih
    | true =>
      simp only [hd, if_true, List.map_cons]
      rw [show candData (candidateOf p.2 p.1 (expl p)) = matchData p.2 from rfl, ih]

theorem filter_mergeSort_eq (matchList : List MatchResult) (k : ℚ × ℕ) :
    (matchList.mergeSort rankerLe).filter (fun m => decide (rankerKey m = k)) =
      matchList.filter (fun m => decide (rankerKey m = k)) := by
  have hpair : (matchList.filter (fun m => decide (rankerKey m = k))).Pairwise
      (fun a b => rankerLe a b = true) := by
    apply List.pairwise_of_forall_mem_list
    intro a ha b hb
    have hka : rankerKey a = k := by simpa using (List.mem_filter.mp ha).2
    have hkb : rankerKey b = k := by simpa using (List.mem_filter.mp hb).2
    show keyLe (rankerKey b) (rankerKey a) = true
    rw [hka, hkb]
    exact keyLe_refl k
  have hsub : List.Sublist (matchList.filter (fun m => decide (rankerKey m = k)))
      matchList :=
    List.filter_sublist _
  have h3 : List.Sublist (matchList.filter (fun m => decide (rankerKey m = k)))
      (matchList.mergeSort rankerLe) :=
    List.sublist_mergeSort rankerLe_trans rankerLe_total hpair hsub
  have heq : (matchList.filter (fun m => decide (rankerKey m = k))).filter
      (fun m => decide (rankerKey m = k)) =
      matchList.filter (fun m => decide (rankerKey m = k)) :=
    List.filter_eq_self.mpr (fun a ha => (List.mem_filter.mp ha).2)
  have h5 : List.Sublist (matchList.filter (fun m => decide (rankerKey m = k)))
      ((matchList.mergeSort rankerLe).filter (fun m => decide (rankerKey m = k))) := by
    have h6 := h3.filter (fun m => decide (rankerKey m = k))
    rwa [heq] at h6
  have hlen : (matchList.filter (fun m => decide (rankerKey m = k))).length =
      ((matchList.mergeSort rankerLe).filter (fun m => decide (rankerKey m = k))).length :=
    ((List.mergeSort_perm matchList rankerLe).filter _).length_eq.symm
  exact (h5.eq_of_length hlen).symm

/-- C4: `rank_candidates` preserves length, assigns dense ranks `1..N` in
order, sorts descending by `(overall_score, matched-skill count)`, keeps
exact-tie candidates in their original input order (stable sort, stated
via key-class filters), and maps the empty input to the empty output. -/
theorem rank_candidates_spec (ai : MatchResult → ℕ → Option String)
    (matchList : List MatchResult) (g : Bool) :
    ((rankCandidates ai matchList g).length = matchList.length) ∧
    ((rankCandidates ai matchList g).map CandidateResult.rank =
      List.range' 1 matchList.length) ∧
    ((rankCandidates ai matchList g).Pairwise
      (fun a b => keyLe (candKey b) (candKey a) = true)) ∧
    (∀ k : ℚ × ℕ,
      ((rankCandidates ai matchList g).filter
        (fun c => decide (candKey c = k))).map candData =
      (matchList.filter (fun m => decide (rankerKey m = k))).map matchData) ∧
    (rankCandidates ai ([] : List MatchResult) g = []) := by
  refine ⟨rankCandidates_length ai matchList g, ?_, ?_, ?_, by simp [rankCandidates]⟩
  · rw [rankCandidates_eq, List.map_map]
    have hcomp : (CandidateResult.rank ∘ fun p : ℕ × MatchResult =>
        candidateOf p.2 p.1 (rankExplanation ai g p.2 p.1)) = Prod.fst :=
      funext fun p => rfl
    rw [hcomp, List.enumFrom_map_fst, List.length_mergeSort]
  · rw [rankCandidates_eq, List.pairwise_map]
    show ((matchList.mergeSort rankerLe).enumFrom 1).Pairwise
      (fun a b => keyLe (rankerKey b.2) (rankerKey a.2) = true)
    have hp : (matchList.mergeSort rankerLe).Pairwise (fun a b => rankerLe a b = true) :=
      List.sorted_mergeSort rankerLe_trans rankerLe_total matchList
    have h2 : (((matchList.mergeSort rankerLe).enumFrom 1).map Prod.snd).Pairwise
        (fun a b => keyLe (rankerKey b) (rankerKey a) = true) := by
      rw [List.enumFrom_map_snd]
      exact hp
    exact List.pairwise_map.mp h2
  · intro k
    rw [rankCandidates_eq, filter_map_cand, List.enumFrom_map_snd, filter_mergeSort_eq]

/-! ## Deterministic explanation template -/

theorem simpleExplanation_eq_template (m : MatchResult) (rank : ℕ) :
    generateSimpleExplanation m rank = specExplanationTemplate m rank := by
  unfold generateSimpleExplanation specExplanationTemplate
  cases h1 : m.matched_skills.isEmpty <;> cases h2 : m.skill_gaps.isEmpty <;>
    cases h3 : m.strengths.isEmpty <;> simp [h1, h2, h3]

theorem pyJoin_length_ge (sep x : String) (xs : List String) :
    x.length ≤ (pyJoin sep (x :: xs)).length := by
  cases xs with
  | nil => simp [pyJoin]
  | cons y ys =>
    simp only [pyJoin, String.length_append]
    omega

theorem pyJoin_cons_ne_empty (sep s0 : String) (h0 : s0.length ≠ 0)
    (rest : List String) : pyJoin sep (s0 :: rest) ≠ "" := by
  intro h
  have hge := pyJoin_length_ge sep s0 rest
  rw [h, String.length_empty] at hge
  omega

theorem template_ne_empty (m : MatchResult) (rank : ℕ) :
    specExplanationTemplate m rank ≠ "" := by
  unfold specExplanationTemplate
  rw [List.append_assoc, List.append_assoc, List.singleton_append]
  apply pyJoin_cons_ne_empty
  simp only [String.length_append]
  have h8 : ("Ranked #" : String).length = 8 := by decide
  omega

/-- C8: with explanation generation disabled, every produced explanation
equals the deterministic template (start sentence plus the three optional
sentences in fixed order, space-joined), and the simple explanation is
always a non-empty string. -/
theorem explanation_template_spec :
    (∀ (ai : MatchResult → ℕ → Option String) (matchList : List MatchResult),
      (rankCandidates ai matchList false).map CandidateResult.explanation =
        ((matchList.mergeSort rankerLe).enumFrom 1).map
          (fun p => specExplanationTemplate p.2 p.1)) ∧
    (∀ (m : MatchResult) (rank : ℕ),
      generateSimpleExplanation m rank = specExplanationTemplate m rank) ∧
    (∀ (m : MatchResult) (rank : ℕ), generateSimpleExplanation m rank ≠ "") := by
  refine ⟨?_, simpleExplanation_eq_template, ?_⟩
  · intro ai matchList
    rw [rankCandidates_eq, List.map_map]
    apply List.map_congr_left
    intro p _
    calc (candidateOf p.2 p.1 (rankExplanation ai false p.2 p.1)).explanation
        = generateSimpleExplanation p.2 p.1 := rfl
      _ = specExplanationTemplate p.2 p.1 := simpleExplanation_eq_template p.2 p.1
  · intro m rank
    rw [simpleExplanation_eq_template]
    exact template_ne_empty m rank

/-! ## Orchestrator properties -/

theorem parseStage_snapshots {α : Type} (parse : α → Except String ResumeData)
    (total : ℕ) (inputs : List (ℕ × α)) :
    ∀ st ∈ (parseStage parse total inputs).2.2,
      ∃ p ∈ inputs, st = mkStatus "Parser" p.1 total none false := by
  induction inputs with
  | nil =>
    intro st hst
    simp [parseStage] at hst
  | cons p rest ih =>
    obtain ⟨i, x⟩ := p
    intro st hst
    cases hp : parse x with
    | error e =>
      simp only [parseStage, hp] at hst
      rcases List.mem_cons.mp hst with h | h
      · exact ⟨(i, x), List.mem_cons_self _ _, h⟩
      · obtain ⟨q, hq, hqe⟩ := ih st h
        exact ⟨q, List.mem_cons_of_mem _ hq, hqe⟩
    | ok rd =>
      simp only [parseStage, hp] at hst
      rcases List.mem_cons.mp hst with h | h
      · exact ⟨(i, x), List.mem_cons_self _ _, h⟩
      · obtain ⟨q, hq, hqe⟩ := ih st h
        exact ⟨q, List.mem_cons_of_mem _ hq, hqe⟩

theorem parseStage_all_fail {α : Type} (parse : α → Except String ResumeData)
    (total : ℕ) (inputs : List (ℕ × α))
    (h : ∀ p ∈ inputs, ∃ e, parse p.2 = .error e) :
    (parseStage parse total inputs).1 = [] := by
  induction inputs with
  | nil => rfl
  | cons p rest ih =>
    obtain ⟨i, x⟩ := p
    obtain ⟨e, he⟩ := h (i, x) (List.mem_cons_self _ _)
    simp only [parseStage, he]
    exact ih (fun q hq => h q (List.mem_cons_of_mem _ hq))

/-- C6: when the analyzer succeeds but every candidate fails to parse,
the run returns empty results with exactly the summary error
"No resumes could be parsed" (the per-candidate extraction errors are
discarded from the returned error), emits a terminal Parser error
snapshot last, and never emits a completed snapshot. -/
theorem zero_parse_survivors {α : Type} (analyze : String → Except String JobRequirements)
    (parse : α → Except String ResumeData) (ai : MatchResult → ℕ → Option String)
    (pdf_files : List α) (jd : String) (g : Bool)
    (ha : ∃ jr, analyze jd = .ok jr)
    (hp : ∀ x ∈ pdf_files, ∃ e, parse x = .error e) :
    (process analyze parse ai pdf_files jd g).results = [] ∧
    (process analyze parse ai pdf_files jd g).error_summary =
      some "No resumes could be parsed" ∧
    (process analyze parse ai pdf_files jd g).snapshots.getLast? =
      some (mkStatus "Parser" pdf_files.length pdf_files.length
        (some "No resumes could be parsed") false) ∧
    (∀ st ∈ (process analyze parse ai pdf_files jd g).snapshots,
      st.is_complete = false) := by
  obtain ⟨jr, hjr⟩ := ha
  have hnil : (parseStage parse pdf_files.length pdf_files.enum).1 = [] := by
    apply parseStage_all_fail
    intro p hpmem
    apply hp p.2
    have hm := List.mem_map_of_mem Prod.snd hpmem
    rwa [List.enum_eq_enumFrom, List.enumFrom_map_snd] at hm
  have hproc : process analyze parse ai pdf_files jd g =
      { results := []
        error_summary := some "No resumes could be parsed"
        snapshots := mkStatus "Analyzer" 0 pdf_files.length none false ::
          (parseStage parse pdf_files.length pdf_files.enum).2.2 ++
          [mkStatus "Parser" pdf_files.length pdf_files.length
            (some "No resumes could be parsed") false] } := by
    unfold process
    rw [hjr]
    simp only [hnil, List.isEmpty_nil, if_true]
  refine ⟨by rw [hproc], by rw [hproc], ?_, ?_⟩
  · rw [hproc]
    show (mkStatus "Analyzer" 0 pdf_files.length none false ::
      ((parseStage parse pdf_files.length pdf_files.enum).2.2 ++
        [mkStatus "Parser" pdf_files.length pdf_files.length
          (some "No resumes could be parsed") false])).getLast? = _
    rw [← List.cons_append, List.getLast?_concat]
  · rw [hproc]
    intro st hst
    rcases List.mem_cons.mp hst with h | h
    · rw [h]; rfl
    · rcases List.mem_append.mp h with h2 | h2
      · obtain ⟨q, _, hqe⟩ := parseStage_snapshots parse pdf_files.length
          pdf_files.enum st h2
        rw [hqe]; rfl
      · rw [List.mem_singleton.mp h2]; rfl

/-- Concrete instantiation witnessing that the hypotheses of
`zero_parse_survivors` are satisfiable. -/
theorem zero_parse_survivors_witness :
    (∃ jr, analyzeW "jd" = .ok jr) ∧
    (∀ x ∈ ([4, 7] : List ℕ), ∃ e, parseFailW x = .error e) ∧
    ((process analyzeW parseFailW (fun _ _ => none) [4, 7] "jd" false).results = [] ∧
     (process analyzeW parseFailW (fun _ _ => none) [4, 7] "jd" false).error_summary =
       some "No resumes could be parsed" ∧
     (process analyzeW parseFailW (fun _ _ => none) [4, 7] "jd" false).snapshots.getLast? =
       some (mkStatus "Parser" ([4, 7] : List ℕ).length ([4, 7] : List ℕ).length
         (some "No resumes could be parsed") false) ∧
     (∀ st ∈ (process analyzeW parseFailW (fun _ _ => none) [4, 7] "jd" false).snapshots,
       st.is_complete = false)) :=
  ⟨⟨reqC7, rfl⟩, fun x _ => ⟨"bad document", rfl⟩,
    zero_parse_survivors analyzeW parseFailW (fun _ _ => none) [4, 7] "jd" false
      ⟨reqC7, rfl⟩ (fun x _ => ⟨"bad document", rfl⟩)⟩

/-! ## C5 scenario: batch of 3, candidate 2 fails extraction -/

theorem runC5_eq : runC5 =
    { results := rankCandidates (fun _ _ => none)
        [matchCandidate resC5 jobC5, matchCandidate resC5 jobC5] false
      error_summary := some "Resume 2: could not extract text"
      snapshots := [mkStatus "Analyzer" 0 3 none false,
        mkStatus "Parser" 0 3 none false, mkStatus "Parser" 1 3 none false,
        mkStatus "Parser" 2 3 none false,
        mkStatus "Matcher" 0 2 none false, mkStatus "Matcher" 1 2 none false,
        mkStatus "Ranker" 0 2 none false, mkStatus "Complete" 2 2 none true] } := by
  have hA : analyzeC5 "Need a dev" = Except.ok jobC5 := rfl
  have hps : parseStage parseC5 ([0, 1, 2] : List ℕ).length (([0, 1, 2] : List ℕ).enum) =
      ([resC5, resC5], ["Resume 2: could not extract text"],
       [mkStatus "Parser" 0 3 none false, mkStatus "Parser" 1 3 none false,
        mkStatus "Parser" 2 3 none false]) := by decide
  have hrank2 : (rankCandidates (fun _ _ => none)
      [matchCandidate resC5 jobC5, matchCandidate resC5 jobC5] false).length = 2 :=
    (rankCandidates_length _ _ _).trans rfl
  unfold runC5 process
  rw [hA]
  simp only [hps]
  simp [List.enum_eq_enumFrom, pyJoin, hrank2]

/-- C5: for a batch of 3 candidates where exactly candidate #2 fails
extraction, `process` returns 2 results together with the "; "-joined
accumulated error list, whose single entry starts with "Resume 2:", and
the final emitted snapshot has `is_complete = true`. -/
theorem batch_partial_failure :
    runC5.results.length = 2 ∧
    runC5.error_summary = some (pyJoin "; " ["Resume 2: could not extract text"]) ∧
    strContains "Resume 2: could not extract text" "Resume 2:" = true ∧
    runC5.snapshots.getLast?.map ProcessingStatus.is_complete = some true := by
  refine ⟨?_, ?_, by decide, ?_⟩
  · rw [runC5_eq]
    show (rankCandidates (fun _ _ => none)
      [matchCandidate resC5 jobC5, matchCandidate resC5 jobC5] false).length = 2
    exact (rankCandidates_length _ _ _).trans rfl
  · rw [runC5_eq]
    rfl
  · rw [runC5_eq]
    rfl

theorem enum_fst_lt {α : Type} (l : List α) (p : ℕ × α) (hp : p ∈ l.enum) :
    p.1 < l.length := by
  have hm := List.mem_map_of_mem Prod.fst hp
  rw [List.enum_eq_enumFrom, List.enumFrom_map_fst, List.mem_range'] at hm
  obtain ⟨i, hi, hpe⟩ := hm
  omega

theorem filter_complete_shape (s0 rk cp : ProcessingStatus)
    (l1 l2 : List ProcessingStatus)
    (h0 : s0.is_complete = false) (h1 : ∀ st ∈ l1, st.is_complete = false)
    (h2 : ∀ st ∈ l2, st.is_complete = false) (h3 : rk.is_complete = false)
    (h4 : cp.is_complete = true) :
    (List.filter (fun st => st.is_complete) (s0 :: l1 ++ l2 ++ [rk, cp])).length = 1 := by
  have e1 : List.filter (fun st => st.is_complete) l1 = [] :=
    List.filter_eq_nil_iff.mpr (fun a ha => by rw [h1 a ha]; simp)
  have e2 : List.filter (fun st => st.is_complete) l2 = [] :=
    List.filter_eq_nil_iff.mpr (fun a ha => by rw [h2 a ha]; simp)
  simp [List.filter_cons, List.filter_append, e1, e2, h0, h3, h4]

/-- C9: every snapshot emitted to the callback satisfies
`processed_count ≤ total_count` (counts are naturals, so `0 ≤` holds by
type), `is_complete` is true in exactly one snapshot when the run reaches
ranking (equivalently, when results are non-empty) and in none on the
terminal-error paths, and any completed snapshot is the final "Complete"
one. -/
theorem status_snapshot_invariant {α : Type} (analyze : String → Except String JobRequirements)
    (parse : α → Except String ResumeData) (ai : MatchResult → ℕ → Option String)
    (pdf_files : List α) (jd : String) (g : Bool) :
    (∀ st ∈ (process analyze parse ai pdf_files jd g).snapshots,
      st.processed_count ≤ st.total_count) ∧
    (((process analyze parse ai pdf_files jd g).snapshots.filter
        (fun st => st.is_complete)).length =
      if (process analyze parse ai pdf_files jd g).results.isEmpty then 0 else 1) ∧
    (∀ st ∈ (process analyze parse ai pdf_files jd g).snapshots, st.is_complete = true →
      (process analyze parse ai pdf_files jd g).snapshots.getLast? = some st ∧
      st.current_agent = "Complete") := by
  cases hA : analyze jd with
  | error e =>
    have hp2 : process analyze parse ai pdf_files jd g =
        { results := []
          error_summary := some ("Failed to analyze job description: " ++ e)
          snapshots := [mkStatus "Analyzer" 0 pdf_files.length none false,
            mkStatus "Analyzer" 0 pdf_files.length (some e) false] } := by
      unfold process
      rw [hA]
    rw [hp2]
    refine ⟨?_, by simp [mkStatus], ?_⟩
    · intro st hst
      rcases List.mem_cons.mp hst with h | h
      · rw [h]; exact Nat.zero_le _
      · rw [List.mem_singleton.mp h]; exact Nat.zero_le _
    · intro st hst hcomp
      exfalso
      rcases List.mem_cons.mp hst with h | h
      · rw [h] at hcomp; simp [mkStatus] at hcomp
      · rw [List.mem_singleton.mp h] at hcomp; simp [mkStatus] at hcomp
  | ok jr =>
    rcases hps : parseStage parse pdf_files.length pdf_files.enum with ⟨parsed, errs, psnaps⟩
    have hpsnap : ∀ st ∈ psnaps, ∃ p ∈ pdf_files.enum,
        st = mkStatus "Parser" p.1 pdf_files.length none false := by
      have h := parseStage_snapshots parse pdf_files.length pdf_files.enum
      rw [hps] at h
      exact h
    have hpsnap_le : ∀ st ∈ psnaps,
        st.processed_count ≤ st.total_count ∧ st.is_complete = false := by
      intro st hst
      obtain ⟨p, hp, hpe⟩ := hpsnap st hst
      subst hpe
      exact ⟨(enum_fst_lt _ _ hp).le, rfl⟩
    cases parsed with
    | nil =>
      have hp2 : process analyze parse ai pdf_files jd g =
          { results := []
            error_summary := some "No resumes could be parsed"
            snapshots := mkStatus "Analyzer" 0 pdf_files.length none false ::
              psnaps ++ [mkStatus "Parser" pdf_files.length pdf_files.length
                (some "No resumes could be parsed") false] } := by
        unfold process
        rw [hA]
        simp only [hps]
        simp
      rw [hp2]
      dsimp only
      have hall : ∀ st ∈ (mkStatus "Analyzer" 0 pdf_files.length none false ::
          psnaps ++ [mkStatus "Parser" pdf_files.length pdf_files.length
            (some "No resumes could be parsed") false]),
          ¬(st.is_complete = true) := by
        intro st hst
        rcases List.mem_cons.mp hst with h | h
        · rw [h]; simp [mkStatus]
        · rcases List.mem_append.mp h with h2 | h2
          · rw [(hpsnap_le st h2).2]; simp
          · rw [List.mem_singleton.mp h2]; simp [mkStatus]
      refine ⟨?_, ?_, ?_⟩
      · intro st hst
        rcases List.mem_cons.mp hst with h | h
        · rw [h]; exact Nat.zero_le _
        · rcases List.mem_append.mp h with h2 | h2
          · exact (hpsnap_le st h2).1
          · rw [List.mem_singleton.mp h2]; exact le_refl _
      · rw [List.filter_eq_nil_iff.mpr hall]
        simp
      · intro st hst hcomp
        exact absurd hcomp (hall st hst)
    | cons r parsed' =>
      have hp2 : process analyze parse ai pdf_files jd g =
          { results := rankCandidates ai
              ((r :: parsed').map (fun x => matchCandidate x jr)) g
            error_summary := if errs.isEmpty then none else some (pyJoin "; " errs)
            snapshots := mkStatus "Analyzer" 0 pdf_files.length none false ::
              psnaps ++ ((r :: parsed').enum.map fun p =>
                mkStatus "Matcher" p.1 (r :: parsed').length none false) ++
              [mkStatus "Ranker" 0
                 ((r :: parsed').map (fun x => matchCandidate x jr)).length none false,
               mkStatus "Complete"
                 (rankCandidates ai ((r :: parsed').map (fun x => matchCandidate x jr)) g).length
                 (rankCandidates ai ((r :: parsed').map (fun x => matchCandidate x jr)) g).length
                 none true] } := by
        unfold process
        rw [hA]
        simp only [hps]
        simp
      rw [hp2]
      dsimp only
      have hRlen : (rankCandidates ai
          ((r :: parsed').map (fun x => matchCandidate x jr)) g).length =
          parsed'.length + 1 := by
        rw [rankCandidates_length]
        simp
      have hRempty : (rankCandidates ai
          ((r :: parsed').map (fun x => matchCandidate x jr)) g).isEmpty = false := by
        rw [List.isEmpty_eq_false]
        intro h
        rw [h] at hRlen
        simp at hRlen
      have hmmem : ∀ st ∈ ((r :: parsed').enum.map fun p =>
          mkStatus "Matcher" p.1 (r :: parsed').length none false),
          st.processed_count ≤ st.total_count ∧ st.is_complete = false := by
        intro st hst
        obtain ⟨p, hp, hpe⟩ := List.mem_map.mp hst
        subst hpe
        exact ⟨(enum_fst_lt _ _ hp).le, rfl⟩
      refine ⟨?_, ?_, ?_⟩
      · intro st hst
        rcases List.mem_cons.mp hst with h | h
        · rw [h]; exact Nat.zero_le _
        · rcases List.mem_append.mp h with h2 | h2
          · rcases List.mem_append.mp h2 with h3 | h3
            · exact (hpsnap_le st h3).1
            · exact (hmmem st h3).1
          · rcases List.mem_cons.mp h2 with h3 | h3
            · rw [h3]; exact Nat.zero_le _
            · rw [List.mem_singleton.mp h3]; exact le_refl _
      · have hfilter := filter_complete_shape
          (mkStatus "Analyzer" 0 pdf_files.length none false)
          (mkStatus "Ranker" 0
            ((r :: parsed').map (fun x => matchCandidate x jr)).length none false)
          (mkStatus "Complete"
            (rankCandidates ai ((r :: parsed').map (fun x => matchCandidate x jr)) g).length
            (rankCandidates ai ((r :: parsed').map (fun x => matchCandidate x jr)) g).length
            none true)
          psnaps
          ((r :: parsed').enum.map fun p =>
            mkStatus "Matcher" p.1 (r :: parsed').length none false)
          rfl (fun st hst => (hpsnap_le st hst).2)
          (fun st hst => (hmmem st hst).2) rfl rfl
        rw [hfilter, if_neg (by rw [hRempty]; exact Bool.false_ne_true)]
      · intro st hst hcomp
        have hlast : (mkStatus "Analyzer" 0 pdf_files.length none false ::
            psnaps ++ ((r :: parsed').enum.map fun p =>
              mkStatus "Matcher" p.1 (r :: parsed').length none false) ++
            [mkStatus "Ranker" 0
               ((r :: parsed').map (fun x => matchCandidate x jr)).length none false,
             mkStatus "Complete"
               (rankCandidates ai ((r :: parsed').map (fun x => matchCandidate x jr)) g).length
               (rankCandidates ai ((r :: parsed').map (fun x => matchCandidate x jr)) g).length
               none true]).getLast? =
            some (mkStatus "Complete"
              (rankCandidates ai ((r :: parsed').map (fun x => matchCandidate x jr)) g).length
              (rankCandidates ai ((r :: parsed').map (fun x => matchCandidate x jr)) g).length
              none true) := by
          simp [List.getLast?_append, List.getLast?_cons]
        rcases List.mem_cons.mp hst with h | h
        · rw [h] at hcomp; simp [mkStatus] at hcomp
        · rcases List.mem_append.mp h with h2 | h2
          · rcases List.mem_append.mp h2 with h3 | h3
            · rw [(hpsnap_le st h3).2] at hcomp; simp at hcomp
            · rw [(hmmem st h3).2] at hcomp; simp at hcomp
          · rcases List.mem_cons.mp h2 with h3 | h3
            · rw [h3] at hcomp; simp [mkStatus] at hcomp
            · rw [List.mem_singleton.mp h3]
              exact ⟨hlast, rfl⟩
